import Mathlib

/-!
Verification of the `TwoLayerQNN` composite-estimator builder
(`qiskit_machine_learning/neural_networks/two_layer_qnn.py`) and of the
forward/backward estimator and training-loop contracts described in the
system specification.

The builder is embedded directly from the source.  Circuits, instructions
and observables are shallow models of the qiskit objects the source
manipulates; external-library operations (`QuantumCircuit.append`, the
opflow composition `~StateFn(obs) @ StateFn(qc)`, the `ZZFeatureMap` and
`RealAmplitudes` library circuits) are translated with their documented
semantics, noted on each definition.  Real scalars are modelled by `ℚ`.
-/

namespace QML

/-- An opaque identifier for one scalar degree of freedom of a circuit
(qiskit's `Parameter`). -/
structure Param where
  name : String
deriving DecidableEq

/-- A circuit instruction as seen by `QuantumCircuit.append`: an opaque gate
block exposing its name, its qubit arity and its free parameters. -/
structure Instruction where
  name : String
  numQubits : Nat
  parameters : List Param
deriving DecidableEq

/-- A parametrized quantum circuit: a number of qubits, the ordered list of
free parameters, and the ordered list of appended instructions together with
the qubit arguments each was applied to. -/
structure QuantumCircuit where
  name : String
  numQubits : Nat
  parameters : List Param
  data : List (Instruction × List Nat)
deriving DecidableEq

/-- Conversion of a circuit to a single opaque instruction, as qiskit does
implicitly when a circuit is passed to `QuantumCircuit.append`. -/
def QuantumCircuit.toInstruction (c : QuantumCircuit) : Instruction :=
  ⟨c.name, c.numQubits, c.parameters⟩

/-- Construction-time failures.  `featureDimensionTooSmall` models the
`ValueError` of the library `ZZFeatureMap`; the remaining constructors model
the `CircuitError` raised by `QuantumCircuit.append` on malformed qubit
arguments. -/
inductive BuildError where
  | featureDimensionTooSmall
  | circuitArityMismatch
  | qubitIndexOutOfRange
  | duplicateQubitArguments
deriving DecidableEq

/-- The empty circuit `QuantumCircuit(num_qubits)` of source line 57. -/
def emptyCircuit (n : Nat) : QuantumCircuit :=
  ⟨"circuit", n, [], []⟩

/-- Embeds `QuantumCircuit.append(sub, qargs)` (source lines 58-59): qiskit
raises `CircuitError` when the number of qubit arguments differs from the
appended block's qubit count, when an argument is out of range, or when an
argument is repeated; otherwise the block is appended to the data list and
its free parameters are added (first-seen order, no duplicates) to the
circuit's parameter set. -/
def QuantumCircuit.appendC (qc sub : QuantumCircuit) (qargs : List Nat) :
    Except BuildError QuantumCircuit :=
  if qargs.length ≠ sub.numQubits then
    .error .circuitArityMismatch
  else if qargs.any (fun i => decide (qc.numQubits ≤ i)) then
    .error .qubitIndexOutOfRange
  else if ¬ qargs.Nodup then
    .error .duplicateQubitArguments
  else
    .ok { qc with
          parameters :=
            qc.parameters ++ sub.parameters.filter (fun p => decide (p ∉ qc.parameters)),
          data := qc.data ++ [(sub.toInstruction, qargs)] }

/-- Models the library `ZZFeatureMap(n)` (source line 53): a second-order
data-encoding circuit over `n` qubits with one input parameter `x[i]` per
qubit; the library raises `ValueError` for a feature dimension below 2,
since the circuit contains 2-local interactions. -/
def zzFeatureMap (n : Nat) : Except BuildError QuantumCircuit :=
  if n < 2 then .error .featureDimensionTooSmall
  else
    let ps := (List.range n).map (fun i => Param.mk ("x[" ++ toString i ++ "]"))
    .ok ⟨"ZZFeatureMap", n, ps, [(⟨"zz-evolution", n, ps⟩, List.range n)]⟩

/-- Models the library `RealAmplitudes(n)` (source line 54): a
hardware-efficient ansatz over `n` qubits with `(reps + 1) * n` rotation
parameters `θ[i]`; the library default is `reps = 3`. -/
def realAmplitudes (n reps : Nat) : QuantumCircuit :=
  let ps := (List.range ((reps + 1) * n)).map
    (fun i => Param.mk ("theta[" ++ toString i ++ "]"))
  ⟨"RealAmplitudes", n, ps, [(⟨"ry-cx-layers", n, ps⟩, List.range n)]⟩

/-- A single-qubit Pauli factor. -/
inductive Pauli where
  | I
  | X
  | Y
  | Z
deriving DecidableEq

/-- A measurable operator, as built by `PauliSumOp.from_list`: a sum of
Pauli strings with rational coefficients, over a fixed number of qubits. -/
structure Observable where
  terms : List (List Pauli × ℚ)
  numQubits : Nat
deriving DecidableEq

/-- The default observable `PauliSumOp.from_list([('Z'*num_qubits, 1)])` of
source line 62: the tensor product of Pauli-Z on all qubits, coefficient 1. -/
def pauliZObservable (n : Nat) : Observable :=
  ⟨[(List.replicate n Pauli.Z, 1)], n⟩

/-- Dimension expansion of an observable by `k` identity factors, as done by
opflow's `_expand_dim` on the primitive of an `OperatorStateFn`. -/
def Observable.expandDim (obs : Observable) (k : Nat) : Observable :=
  ⟨obs.terms.map (fun t => (t.1 ++ List.replicate k Pauli.I, t.2)),
   obs.numQubits + k⟩

/-- Dimension expansion of a circuit state by `k` fresh qubits, as done by
opflow's `_expand_dim` on a `CircuitStateFn`. -/
def QuantumCircuit.expandDim (c : QuantumCircuit) (k : Nat) : QuantumCircuit :=
  { c with numQubits := c.numQubits + k }

/-- The abstract composed operator `~StateFn(observable) @ StateFn(circuit)`
of source line 65: a measurement state function applied to a circuit state
function, whose later evaluation is the expectation
`⟨circuit| observable |circuit⟩`.  No numeric parameter values are bound;
the circuit's parameters stay free in the expression. -/
structure OpExpr where
  measurement : Observable
  stateCirc : QuantumCircuit
deriving DecidableEq

/-- Embeds the opflow composition `~StateFn(obs) @ StateFn(qc)`.  Following
opflow's `_expand_shorter_operator_and_permute`, a qubit-count mismatch is
not an error: the operand with fewer qubits is expanded with identities (for
the measurement) or fresh qubits (for the circuit state). -/
def composeMeas (obs : Observable) (qc : QuantumCircuit) : OpExpr :=
  if obs.numQubits < qc.numQubits then
    ⟨obs.expandDim (qc.numQubits - obs.numQubits), qc⟩
  else if qc.numQubits < obs.numQubits then
    ⟨obs, qc.expandDim (obs.numQubits - qc.numQubits)⟩
  else
    ⟨obs, qc⟩

/-- Embeds `feature_map if feature_map else ZZFeatureMap(num_qubits)` of
source line 53.  Python truthiness applies: a circuit with no instructions
has `len == 0` and is falsy, so the default is used in that case too. -/
def resolveFeatureMap (n : Nat) : Option QuantumCircuit → Except BuildError QuantumCircuit
  | some f => if f.data.isEmpty then zzFeatureMap n else .ok f
  | none => zzFeatureMap n

/-- Embeds `var_form if var_form else RealAmplitudes(num_qubits)` of source
line 54, with the same truthiness rule and the library default `reps = 3`. -/
def resolveVarForm (n : Nat) : Option QuantumCircuit → QuantumCircuit
  | some v => if v.data.isEmpty then realAmplitudes n 3 else v
  | none => realAmplitudes n 3

/-- The built two-layer network: the resolved circuits, the composite
circuit, the observable, the composed operator, and the two ordered
parameter groups handed to the underlying estimator (source line 67). -/
structure TwoLayerQNN where
  numQubits : Nat
  featureMap : QuantumCircuit
  varForm : QuantumCircuit
  qc : QuantumCircuit
  observable : Observable
  operator : OpExpr
  inputParams : List Param
  weightParams : List Param
deriving DecidableEq

/-- Embeds `TwoLayerQNN.__init__` (source lines 51-68): resolve the feature
map and variational form, append both in order onto a fresh register of
`num_qubits` qubits, resolve the observable, compose the measurement with
the circuit state, and record `feature_map.parameters` as the input group
and `var_form.parameters` as the weight group. -/
def TwoLayerQNN.init (numQubits : Nat) (featureMap varForm : Option QuantumCircuit)
    (observable : Option Observable) : Except BuildError TwoLayerQNN :=
  match resolveFeatureMap numQubits featureMap with
  | .error e => .error e
  | .ok fm =>
    let vf := resolveVarForm numQubits varForm
    match (emptyCircuit numQubits).appendC fm (List.range numQubits) with
    | .error e => .error e
    | .ok qc1 =>
      match qc1.appendC vf (List.range numQubits) with
      | .error e => .error e
      | .ok qc2 =>
        let obs := observable.getD (pauliZObservable numQubits)
        .ok { numQubits := numQubits
              featureMap := fm
              varForm := vf
              qc := qc2
              observable := obs
              operator := composeMeas obs qc2
              inputParams := fm.parameters
              weightParams := vf.parameters }

/-- Characterization of a successful `appendC`: the resulting circuit keeps
the name and qubit count, extends the parameter set with the unseen
parameters of the appended block, and records the block at the end of the
data list. -/
lemma appendC_ok_spec {qc sub : QuantumCircuit} {qargs : List Nat} {r : QuantumCircuit}
    (h : qc.appendC sub qargs = .ok r) :
    r.name = qc.name ∧ r.numQubits = qc.numQubits ∧
    r.parameters = qc.parameters ++ sub.parameters.filter (fun p => decide (p ∉ qc.parameters)) ∧
    r.data = qc.data ++ [(sub.toInstruction, qargs)] := by
  unfold QuantumCircuit.appendC at h
  split at h
  · cases h
  · split at h
    · cases h
    · split at h
      · cases h
      · cases h
        exact ⟨rfl, rfl, rfl, rfl⟩

/-- An `appendC` whose qubit-argument count differs from the appended
block's qubit count fails with the arity error. -/
lemma appendC_arity_error {qc sub : QuantumCircuit} {qargs : List Nat}
    (h : qargs.length ≠ sub.numQubits) :
    qc.appendC sub qargs = .error .circuitArityMismatch := by
  unfold QuantumCircuit.appendC
  rw [if_pos h]

/-- Full characterization of a successful construction: the resolved
circuits, the composite circuit's shape, and every stored field. -/
lemma init_ok_spec {n : Nat} {fmO vfO : Option QuantumCircuit} {obsO : Option Observable}
    {q : TwoLayerQNN} (h : TwoLayerQNN.init n fmO vfO obsO = .ok q) :
    ∃ fm, resolveFeatureMap n fmO = .ok fm ∧
      q.featureMap = fm ∧
      q.varForm = resolveVarForm n vfO ∧
      q.observable = obsO.getD (pauliZObservable n) ∧
      q.inputParams = fm.parameters ∧
      q.weightParams = (resolveVarForm n vfO).parameters ∧
      q.numQubits = n ∧
      q.qc.numQubits = n ∧
      q.qc.data = [(fm.toInstruction, List.range n),
                   ((resolveVarForm n vfO).toInstruction, List.range n)] ∧
      q.qc.parameters =
        fm.parameters ++
          (resolveVarForm n vfO).parameters.filter (fun p => decide (p ∉ fm.parameters)) ∧
      q.operator = composeMeas q.observable q.qc := by
  unfold TwoLayerQNN.init at h
  cases hfm : resolveFeatureMap n fmO with
  | error e =>
    simp only [hfm] at h
    cases h
  | ok fm =>
    simp only [hfm] at h
    cases h1 : (emptyCircuit n).appendC fm (List.range n) with
    | error e =>
      simp only [h1] at h
      cases h
    | ok qc1 =>
      simp only [h1] at h
      cases h2 : qc1.appendC (resolveVarForm n vfO) (List.range n) with
      | error e =>
        simp only [h2] at h
        cases h
      | ok qc2 =>
        simp only [h2] at h
        cases h
        obtain ⟨hn1, hq1, hp1, hd1⟩ := appendC_ok_spec h1
        obtain ⟨hn2, hq2, hp2, hd2⟩ := appendC_ok_spec h2
        have hqp1 : qc1.parameters = fm.parameters := by
          rw [hp1]
          simp [emptyCircuit]
        refine ⟨fm, rfl, rfl, rfl, rfl, rfl, rfl, rfl, ?_, ?_, ?_, rfl⟩
        · rw [hq2, hq1]
          rfl
        · rw [hd2, hd1]
          rfl
        · rw [hp2, hqp1]

/-- A nonempty one-qubit circuit without parameters, used to probe
qubit-count mismatches. -/
def oneQubitCircuit : QuantumCircuit :=
  ⟨"c1", 1, [], [(⟨"h-gate", 1, []⟩, [0])]⟩

/-- A parameter deliberately shared between a feature map and a variational
form. -/
def sharedParam : Param :=
  ⟨"a"⟩

/-- A nonempty one-qubit circuit whose single gate carries `sharedParam`. -/
def circuitWithShared (nm : String) : QuantumCircuit :=
  ⟨nm, 1, [sharedParam], [(⟨"rx", 1, [sharedParam]⟩, [0])]⟩

/-- C1 (amended): a (nonempty) supplied feature or trainable circuit whose
qubit count differs from `num_qubits` makes construction fail: the circuit
append on the `num_qubits`-wide register rejects the arity mismatch.  (The
observable's qubit count is not checked at construction; see the
counterexample.) -/
theorem circuitQubitMismatchRaises :
    (∀ (n : Nat) (fm : QuantumCircuit) (vfO : Option QuantumCircuit)
        (obsO : Option Observable), fm.data ≠ [] → fm.numQubits ≠ n →
        ∃ e, TwoLayerQNN.init n (some fm) vfO obsO = .error e) ∧
    (∀ (n : Nat) (fmO : Option QuantumCircuit) (vf : QuantumCircuit)
        (obsO : Option Observable), vf.data ≠ [] → vf.numQubits ≠ n →
        ∃ e, TwoLayerQNN.init n fmO (some vf) obsO = .error e) := by
  constructor
  · intro n fm vfO obsO hne hqn
    have hfm : resolveFeatureMap n (some fm) = .ok fm := by
      simp [resolveFeatureMap, List.isEmpty_iff, hne]
    have hlen : (List.range n).length ≠ fm.numQubits := by
      rw [List.length_range]
      exact fun hEq => hqn hEq.symm
    refine ⟨.circuitArityMismatch, ?_⟩
    unfold TwoLayerQNN.init
    simp only [hfm, appendC_arity_error hlen]
  · intro n fmO vf obsO hne hqn
    have hvf : resolveVarForm n (some vf) = vf := by
      simp [resolveVarForm, List.isEmpty_iff, hne]
    cases hfm : resolveFeatureMap n fmO with
    | error e =>
      refine ⟨e, ?_⟩
      unfold TwoLayerQNN.init
      simp only [hfm]
    | ok fm =>
      cases h1 : (emptyCircuit n).appendC fm (List.range n) with
      | error e =>
        refine ⟨e, ?_⟩
        unfold TwoLayerQNN.init
        simp only [hfm, h1]
      | ok qc1 =>
        have hlen : (List.range n).length ≠ (resolveVarForm n (some vf)).numQubits := by
          rw [hvf, List.length_range]
          exact fun hEq => hqn hEq.symm
        refine ⟨.circuitArityMismatch, ?_⟩
        unfold TwoLayerQNN.init
        simp only [hfm, h1, appendC_arity_error hlen]

/-- Witness for C1: a one-qubit feature circuit on a two-qubit network is
rejected at construction. -/
theorem circuitQubitMismatchRaises_witness :
    ∃ e, TwoLayerQNN.init 2 (some oneQubitCircuit) none none = .error e :=
  circuitQubitMismatchRaises.1 2 oneQubitCircuit none none (by decide) (by decide)

/-- C1 counterexample: with `num_qubits = 3` and a 2-qubit observable,
construction succeeds instead of raising — the opflow composition expands
the smaller observable with identities, so the qubit mismatch with the
observable is never detected. -/
theorem observableMismatchNotRejected :
    (TwoLayerQNN.init 3 none none (some (pauliZObservable 2))).isOk = true := by
  decide

/-- C2 (amended): the estimator exposes exactly the feature circuit's
parameter list as `input_params` and the trainable circuit's parameter list
as `weight_params`; their union is exactly the free-parameter set of the
composite circuit; and, provided the two circuits share no parameter, the
two groups are disjoint. -/
theorem inputWeightParamsPartition :
    ∀ (n : Nat) (fmO vfO : Option QuantumCircuit) (obsO : Option Observable)
      (q : TwoLayerQNN), TwoLayerQNN.init n fmO vfO obsO = .ok q →
      q.inputParams = q.featureMap.parameters ∧
      q.weightParams = q.varForm.parameters ∧
      (∀ p, p ∈ q.qc.parameters ↔ p ∈ q.inputParams ∨ p ∈ q.weightParams) ∧
      ((∀ p ∈ q.featureMap.parameters, p ∉ q.varForm.parameters) →
        ∀ p, ¬ (p ∈ q.inputParams ∧ p ∈ q.weightParams)) := by
  intro n fmO vfO obsO q h
  obtain ⟨fm, hfm, hQfm, hQvf, hobs, hip, hwp, hnq, hqn, hdata, hparams, hop⟩ :=
    init_ok_spec h
  refine ⟨by rw [hip, hQfm], by rw [hwp, hQvf], ?_, ?_⟩
  · intro p
    rw [hparams, hip, hwp]
    simp only [List.mem_append, List.mem_filter, decide_eq_true_eq]
    constructor
    · rintro (hl | ⟨hr, _⟩)
      · exact Or.inl hl
      · exact Or.inr hr
    · rintro (hl | hr)
      · exact Or.inl hl
      · by_cases hmem : p ∈ fm.parameters
        · exact Or.inl hmem
        · exact Or.inr ⟨hr, hmem⟩
  · intro hdisj p hpq
    obtain ⟨h1, h2⟩ := hpq
    rw [hip] at h1
    rw [hwp] at h2
    exact hdisj p (by rw [hQfm]; exact h1) (by rw [hQvf]; exact h2)

/-- Witness for C2: the default two-qubit construction. -/
theorem inputWeightParamsPartition_witness :
    ∃ q, TwoLayerQNN.init 2 none none none = .ok q ∧
      q.inputParams = q.featureMap.parameters ∧
      q.weightParams = q.varForm.parameters :=
  ⟨_, rfl, (inputWeightParamsPartition 2 none none none _ rfl).1,
    (inputWeightParamsPartition 2 none none none _ rfl).2.1⟩

/-- C2 counterexample: nothing stops the two circuits from sharing a
parameter; construction then succeeds with a parameter in both groups, so
the intersection of `input_params` and `weight_params` is not empty. -/
theorem sharedParameterNotDisjoint :
    ∃ q, TwoLayerQNN.init 1 (some (circuitWithShared "fm"))
        (some (circuitWithShared "vf")) none = .ok q ∧
      sharedParam ∈ q.inputParams ∧ sharedParam ∈ q.weightParams := by
  refine ⟨_, rfl, ?_, ?_⟩ <;> decide

/-- C3: every successful construction appends the feature circuit first and
the trainable circuit second onto the full register `0..num_qubits-1`, and
stores the operator obtained by composing the measurement observable with
the composite circuit as a state preparation; the expression is abstract —
the composite circuit's parameters stay free in it — and when the
observable's qubit count matches, the operator is literally the pair of the
observable and the composite circuit. -/
theorem operatorCompositionStructure :
    ∀ (n : Nat) (fmO vfO : Option QuantumCircuit) (obsO : Option Observable)
      (q : TwoLayerQNN), TwoLayerQNN.init n fmO vfO obsO = .ok q →
      q.qc.numQubits = n ∧
      q.qc.data = [(q.featureMap.toInstruction, List.range n),
                   (q.varForm.toInstruction, List.range n)] ∧
      q.operator = composeMeas q.observable q.qc ∧
      q.operator.stateCirc.parameters = q.qc.parameters ∧
      (q.observable.numQubits = n → q.operator = ⟨q.observable, q.qc⟩) := by
  intro n fmO vfO obsO q h
  obtain ⟨fm, hfm, hQfm, hQvf, hobs, hip, hwp, hnq, hqn, hdata, hparams, hop⟩ :=
    init_ok_spec h
  refine ⟨hqn, by rw [hdata, hQfm, hQvf], hop, ?_, ?_⟩
  · rw [hop]
    unfold composeMeas
    split
    · rfl
    · split
      · rfl
      · rfl
  · intro hOn
    have hEqn : q.observable.numQubits = q.qc.numQubits := by rw [hOn, hqn]
    rw [hop]
    unfold composeMeas
    rw [hEqn]
    simp

/-- Witness for C3: the default two-qubit construction has the two layers in
order and the matching-observable operator shape. -/
theorem operatorCompositionStructure_witness :
    ∃ q, TwoLayerQNN.init 2 none none none = .ok q ∧
      q.qc.data = [(q.featureMap.toInstruction, List.range 2),
                   (q.varForm.toInstruction, List.range 2)] ∧
      q.operator = ⟨q.observable, q.qc⟩ :=
  ⟨_, rfl, (operatorCompositionStructure 2 none none none _ rfl).2.1,
    (operatorCompositionStructure 2 none none none _ rfl).2.2.2.2 (by decide)⟩

/-- C10: with the feature circuit omitted, any `num_qubits` below 2 makes
construction fail, because the default second-order data-encoding circuit
requires at least two qubits. -/
theorem defaultFeatureMapNeedsTwoQubits :
    ∀ (n : Nat), n < 2 → ∀ (vfO : Option QuantumCircuit) (obsO : Option Observable),
      TwoLayerQNN.init n none vfO obsO = .error .featureDimensionTooSmall := by
  intro n hn vfO obsO
  have hz : zzFeatureMap n = .error .featureDimensionTooSmall := by
    unfold zzFeatureMap
    rw [if_pos hn]
  unfold TwoLayerQNN.init
  simp only [resolveFeatureMap, hz]

/-- Witness for C10: the all-defaults constructor rejects one qubit. -/
theorem defaultFeatureMapNeedsTwoQubits_witness :
    TwoLayerQNN.init 1 none none none = .error .featureDimensionTooSmall :=
  defaultFeatureMapNeedsTwoQubits 1 (by decide) none none

/-- Diagonal entry of a single Pauli factor at one classical bit: `Z` has
eigenvalue `+1` on `|0⟩` and `-1` on `|1⟩`, the identity always `+1`.  The
off-diagonal factors `X`, `Y` have zero diagonal; the source only ever
builds `Z`-strings, for which the diagonal determines the expectation. -/
def pauliDiag : Pauli → Bool → ℚ
  | .I, _ => 1
  | .Z, false => 1
  | .Z, true => -1
  | .X, _ => 0
  | .Y, _ => 0

/-- Diagonal entry of a Pauli string at a computational-basis outcome
(missing trailing bits read as `0`). -/
def stringDiag : List Pauli → List Bool → ℚ
  | [], _ => 1
  | p :: ps, [] => pauliDiag p false * stringDiag ps []
  | p :: ps, b :: bs => pauliDiag p b * stringDiag ps bs

/-- Expectation contribution of one Pauli string under a Born distribution
over basis outcomes, given as outcome/probability pairs. -/
def termExpectation (s : List Pauli) (dist : List (List Bool × ℚ)) : ℚ :=
  (dist.map (fun e => e.2 * stringDiag s e.1)).sum

/-- Expectation of an observable on an exact (noiseless) backend: the
coefficient-weighted sum of its strings' expectations under the Born
distribution of the bound circuit's output state.  For the `Z`/`I`-diagonal
observables the source constructs this is the exact statevector
expectation. -/
def expectation (obs : Observable) (dist : List (List Bool × ℚ)) : ℚ :=
  (obs.terms.map (fun t => t.2 * termExpectation t.1 dist)).sum

/-- The all-`Z` string has diagonal entries `±1` at every outcome. -/
lemma stringDiag_replicate_Z (n : Nat) :
    ∀ bs, stringDiag (List.replicate n Pauli.Z) bs = 1 ∨
      stringDiag (List.replicate n Pauli.Z) bs = -1 := by
  induction n with
  | zero =>
    intro bs
    left
    rfl
  | succ m ih =>
    intro bs
    cases bs with
    | nil =>
      rcases ih [] with h | h
      · left
        simp [List.replicate_succ, stringDiag, pauliDiag, h]
      · right
        simp [List.replicate_succ, stringDiag, pauliDiag, h]
    | cons b bs =>
      cases b with
      | false =>
        rcases ih bs with h | h
        · left
          simp [List.replicate_succ, stringDiag, pauliDiag, h]
        · right
          simp [List.replicate_succ, stringDiag, pauliDiag, h]
      | true =>
        rcases ih bs with h | h
        · right
          simp [List.replicate_succ, stringDiag, pauliDiag, h]
        · left
          simp [List.replicate_succ, stringDiag, pauliDiag, h]

/-- A probability-weighted sum of `±1` diagonal entries is bounded by the
total probability mass on either side. -/
lemma termExpectation_bounds {s : List Pauli}
    (hs : ∀ bs, stringDiag s bs = 1 ∨ stringDiag s bs = -1) :
    ∀ dist : List (List Bool × ℚ), (∀ e ∈ dist, 0 ≤ e.2) →
      -(dist.map Prod.snd).sum ≤ termExpectation s dist ∧
        termExpectation s dist ≤ (dist.map Prod.snd).sum := by
  intro dist
  induction dist with
  | nil =>
    intro _
    simp [termExpectation]
  | cons e rest ih =>
    intro hp
    have he : 0 ≤ e.2 := hp e (List.mem_cons_self e rest)
    have hrest := ih (fun x hx => hp x (List.mem_cons_of_mem e hx))
    have hhead : -e.2 ≤ e.2 * stringDiag s e.1 ∧ e.2 * stringDiag s e.1 ≤ e.2 := by
      rcases hs e.1 with h | h <;> rw [h] <;> constructor <;> linarith
    simp only [termExpectation, List.map_cons, List.sum_cons] at *
    constructor <;> linarith [hhead.1, hhead.2, hrest.1, hrest.2]

/-- C4: when the observable is omitted, the built network's observable is
the all-qubit Pauli-Z tensor product with coefficient 1, and its exact
expectation under any Born distribution (any bound circuit on a noiseless
backend) lies in `[-1, 1]`. -/
theorem defaultObservableParityBounded :
    ∀ (n : Nat) (fmO vfO : Option QuantumCircuit) (q : TwoLayerQNN),
      TwoLayerQNN.init n fmO vfO none = .ok q →
      q.observable = pauliZObservable n ∧
      ∀ dist : List (List Bool × ℚ), (∀ e ∈ dist, 0 ≤ e.2) →
        (dist.map Prod.snd).sum = 1 →
        -1 ≤ expectation q.observable dist ∧ expectation q.observable dist ≤ 1 := by
  intro n fmO vfO q h
  obtain ⟨fm, hfm, hQfm, hQvf, hobs, hip, hwp, hnq, hqn, hdata, hparams, hop⟩ :=
    init_ok_spec h
  refine ⟨hobs, ?_⟩
  intro dist hp hsum
  have hexp : expectation q.observable dist =
      termExpectation (List.replicate n Pauli.Z) dist := by
    rw [hobs]
    simp [expectation, pauliZObservable]
  obtain ⟨hlo, hhi⟩ :=
    termExpectation_bounds (stringDiag_replicate_Z n) dist hp
  rw [hsum] at hlo hhi
  rw [hexp]
  exact ⟨hlo, hhi⟩

/-- Witness for C4: the two-qubit default network, evaluated on the point
distribution at outcome `11`, has expectation `1 ∈ [-1, 1]`. -/
theorem defaultObservableParityBounded_witness :
    ∃ q, TwoLayerQNN.init 2 none none none = .ok q ∧
      q.observable = pauliZObservable 2 ∧
      (-1 ≤ expectation q.observable [([true, true], (1 : ℚ))] ∧
        expectation q.observable [([true, true], (1 : ℚ))] ≤ 1) :=
  ⟨_, rfl, (defaultObservableParityBounded 2 none none _ rfl).1,
    (defaultObservableParityBounded 2 none none _ rfl).2
      [([true, true], (1 : ℚ))] (by decide) (by norm_num)⟩

/-- Call-time failures: `shapeError` for a value-vector length that does not
match the declared parameter group, `stateError` for scoring or predicting
before any successful fit. -/
inductive RunError where
  | shapeError
  | stateError
deriving DecidableEq

/-- Modelled from the spec: the `OpflowQNN` forward/backward estimator (the
file `opflow_qnn.py` belongs to the repository but is not under `src/`).
`evalOp` is the exact-backend evaluation of the composed operator at fully
bound input and weight values; each invocation stands for one dispatched
backend job.  `shift` is the half-width of the symmetric parameter shift
used for gradients. -/
structure OpflowQNN where
  inputParams : List Param
  weightParams : List Param
  evalOp : List ℚ → List ℚ → ℚ
  shift : ℚ

/-- Modelled from the spec: `forward(input_values, weight_values)` checks
both value-vector lengths against the declared parameter groups before any
backend dispatch; on success it evaluates the operator once.  The second
component counts the backend jobs issued by the call. -/
def OpflowQNN.forward (q : OpflowQNN) (iv wv : List ℚ) :
    Except RunError ℚ × Nat :=
  if iv.length = q.inputParams.length ∧ wv.length = q.weightParams.length then
    (.ok (q.evalOp iv wv), 1)
  else
    (.error .shapeError, 0)

/-- The weight vector with entry `j` shifted by `s`, all other entries held
fixed. -/
def shiftAt (wv : List ℚ) (j : Nat) (s : ℚ) : List ℚ :=
  wv.set j (wv.getD j 0 + s)

/-- Modelled from the spec: the parameter-shift sweep — for each listed
weight index, evaluate the operator at the positive and at the negative
shift of that weight alone and combine the two evaluations into a
symmetric-difference derivative estimate; the second component counts the
evaluations performed. -/
def gradLoop (evalW : List ℚ → ℚ) (s : ℚ) (wv : List ℚ) :
    List Nat → List ℚ × Nat
  | [] => ([], 0)
  | j :: js =>
    let plus := evalW (shiftAt wv j s)
    let minus := evalW (shiftAt wv j (-s))
    let rest := gradLoop evalW s wv js
    (((plus - minus) / (2 * s)) :: rest.1, rest.2 + 2)

/-- Modelled from the spec: `backward(input_values, weight_values)` checks
the value-vector lengths first (no backend dispatch on mismatch), then runs
the parameter-shift sweep over all weight indices with the inputs held
fixed.  The second component counts the backend evaluations issued. -/
def OpflowQNN.backward (q : OpflowQNN) (iv wv : List ℚ) :
    Except RunError (List ℚ) × Nat :=
  if iv.length = q.inputParams.length ∧ wv.length = q.weightParams.length then
    let r := gradLoop (fun w => q.evalOp iv w) q.shift wv (List.range wv.length)
    (.ok r.1, r.2)
  else
    (.error .shapeError, 0)

/-- The parameter-shift sweep performs exactly two evaluations per listed
weight index. -/
lemma gradLoop_count (evalW : List ℚ → ℚ) (s : ℚ) (wv : List ℚ) :
    ∀ js : List Nat, (gradLoop evalW s wv js).2 = 2 * js.length := by
  intro js
  induction js with
  | nil => rfl
  | cons j js ih =>
    simp only [gradLoop, List.length_cons, ih]
    ring

/-- The parameter-shift sweep returns exactly the symmetric difference
quotients, one per listed weight index, in order. -/
lemma gradLoop_entries (evalW : List ℚ → ℚ) (s : ℚ) (wv : List ℚ) :
    ∀ js : List Nat, (gradLoop evalW s wv js).1 =
      js.map (fun j => (evalW (shiftAt wv j s) - evalW (shiftAt wv j (-s))) / (2 * s)) := by
  intro js
  induction js with
  | nil => rfl
  | cons j js ih =>
    simp only [gradLoop, List.map_cons, ih]

/-- C5 (spec-modelled): for well-shaped calls, `backward` returns one
gradient entry per weight parameter — none for input parameters — each
obtained from the operator evaluated at the symmetric positive and negative
shift of that weight alone with the inputs held fixed, at the cost of
exactly `2 * |weight_params|` additional evaluations. -/
theorem backwardParameterShiftOnWeights :
    ∀ (q : OpflowQNN) (iv wv : List ℚ),
      iv.length = q.inputParams.length → wv.length = q.weightParams.length →
      ∃ g, q.backward iv wv = (.ok g, 2 * q.weightParams.length) ∧
        g.length = q.weightParams.length ∧
        ∀ j, j < q.weightParams.length →
          g.getD j 0 =
            (q.evalOp iv (shiftAt wv j q.shift) -
              q.evalOp iv (shiftAt wv j (-q.shift))) / (2 * q.shift) := by
  intro q iv wv hi hw
  unfold OpflowQNN.backward
  rw [if_pos ⟨hi, hw⟩]
  have hcount := gradLoop_count (fun w => q.evalOp iv w) q.shift wv (List.range wv.length)
  rw [List.length_range] at hcount
  refine ⟨(gradLoop (fun w => q.evalOp iv w) q.shift wv (List.range wv.length)).1,
    ?_, ?_, ?_⟩
  · dsimp only
    rw [hcount, hw]
  · rw [gradLoop_entries, List.length_map, List.length_range, hw]
  · intro j hj
    rw [gradLoop_entries]
    rw [← hw] at hj
    simp [List.getD_eq_getElem?_getD, List.getElem?_range, hj]

/-- A one-weight estimator used to exercise the contracts on concrete
calls. -/
def exampleQNN : OpflowQNN :=
  ⟨[], [⟨"w"⟩], fun _ w => w.getD 0 0, 1 / 2⟩

/-- Witness for C5: the one-weight estimator needs exactly two evaluations
for its gradient. -/
theorem backwardParameterShiftOnWeights_witness :
    ∃ g, exampleQNN.backward [] [3] = (.ok g, 2 * exampleQNN.weightParams.length) ∧
      g.length = exampleQNN.weightParams.length ∧
      ∀ j, j < exampleQNN.weightParams.length →
        g.getD j 0 =
          (exampleQNN.evalOp [] (shiftAt [3] j exampleQNN.shift) -
            exampleQNN.evalOp [] (shiftAt [3] j (-exampleQNN.shift))) /
            (2 * exampleQNN.shift) :=
  backwardParameterShiftOnWeights exampleQNN [] [3] rfl rfl

/-- C6 (spec-modelled): any length mismatch of the supplied input or weight
values makes both `forward` and `backward` fail with the shape error while
issuing zero backend jobs. -/
theorem shapeMismatchFailsFast :
    ∀ (q : OpflowQNN) (iv wv : List ℚ),
      ¬ (iv.length = q.inputParams.length ∧ wv.length = q.weightParams.length) →
      q.forward iv wv = (.error .shapeError, 0) ∧
      q.backward iv wv = (.error .shapeError, 0) := by
  intro q iv wv hbad
  unfold OpflowQNN.forward OpflowQNN.backward
  rw [if_neg hbad, if_neg hbad]
  exact ⟨rfl, rfl⟩

/-- Witness for C6: an empty weight vector on the one-weight estimator is
rejected with zero backend jobs. -/
theorem shapeMismatchFailsFast_witness :
    exampleQNN.forward [] [] = (.error .shapeError, 0) ∧
    exampleQNN.backward [] [] = (.error .shapeError, 0) :=
  shapeMismatchFailsFast exampleQNN [] [] (by simp [exampleQNN])

/-- Modelled from the spec: the `NeuralNetworkClassifier` training loop (its
module belongs to the repository but is not under `src/`; only its test is).
It owns an estimator, the warm-start flag, the injected classical optimizer
(a map from an objective and an initial point to an optimized point), and
the weight vector of the most recent successful fit — `none` while the
classifier is in the Uninitialized state. -/
structure NeuralNetworkClassifier where
  qnn : OpflowQNN
  warmStart : Bool
  optimizer : (List ℚ → ℚ) → List ℚ → List ℚ
  fittedWeights : Option (List ℚ)

/-- Modelled from the spec: the fixed deterministic cold-start initializer,
sized to the weight-parameter count. -/
def coldStartWeights (q : OpflowQNN) : List ℚ :=
  List.replicate q.weightParams.length 0

/-- Modelled from the spec: the optimizer's starting point — the stored
weight vector when warm start is enabled and a fit has succeeded, the fresh
initializer otherwise. -/
def NeuralNetworkClassifier.fitStart (c : NeuralNetworkClassifier) : List ℚ :=
  match c.fittedWeights with
  | some w => if c.warmStart then w else coldStartWeights c.qnn
  | none => coldStartWeights c.qnn

/-- Modelled from the spec: the training objective — per-sample squared
error of the estimator output against the label, summed over the samples. -/
def objectiveL2 (q : OpflowQNN) (xs : List (List ℚ)) (ys : List ℚ)
    (w : List ℚ) : ℚ :=
  ((xs.zip ys).map (fun s => (q.evalOp s.1 w - s.2) ^ 2)).sum

/-- Modelled from the spec: `fit(X, y)` drives the injected optimizer from
the warm- or cold-start point and stores the returned weight vector,
transitioning the classifier to the Fitted state. -/
def NeuralNetworkClassifier.fit (c : NeuralNetworkClassifier)
    (xs : List (List ℚ)) (ys : List ℚ) : NeuralNetworkClassifier :=
  { c with fittedWeights := some (c.optimizer (objectiveL2 c.qnn xs ys) c.fitStart) }

/-- Modelled from the spec: the sign decision rule turning the continuous
expectation output into a `±1` class label. -/
def decisionSign (v : ℚ) : ℚ :=
  if 0 ≤ v then 1 else -1

/-- Modelled from the spec: forward evaluation and decision over a batch of
samples; the second component counts the backend jobs issued. -/
def predictLoop (q : OpflowQNN) (w : List ℚ) :
    List (List ℚ) → Except RunError (List ℚ) × Nat
  | [] => (.ok [], 0)
  | x :: xs =>
    let r := q.forward x w
    match r.1 with
    | .error e => (.error e, r.2)
    | .ok v =>
      let rest := predictLoop q w xs
      match rest.1 with
      | .error e => (.error e, r.2 + rest.2)
      | .ok vs => (.ok (decisionSign v :: vs), r.2 + rest.2)

/-- Modelled from the spec: `predict(X)` requires the Fitted state; before
any successful fit it fails with the state error and issues no backend
job. -/
def NeuralNetworkClassifier.predict (c : NeuralNetworkClassifier)
    (xs : List (List ℚ)) : Except RunError (List ℚ) × Nat :=
  match c.fittedWeights with
  | none => (.error .stateError, 0)
  | some w => predictLoop c.qnn w xs

/-- Modelled from the spec: accuracy — the fraction of samples whose
decision equals the label. -/
def accuracyScore (preds ys : List ℚ) : ℚ :=
  (((preds.zip ys).filter (fun s => decide (s.1 = s.2))).length : ℚ) /
    ((preds.zip ys).length : ℚ)

/-- Modelled from the spec: `score(X, y)` requires the Fitted state; it runs
the forward pass with the stored weights, applies the decision rule and
compares to the labels.  It returns the (unmutated) classifier alongside the
value; the final component counts the backend jobs issued. -/
def NeuralNetworkClassifier.score (c : NeuralNetworkClassifier)
    (xs : List (List ℚ)) (ys : List ℚ) :
    (Except RunError ℚ × NeuralNetworkClassifier) × Nat :=
  match c.fittedWeights with
  | none => ((.error .stateError, c), 0)
  | some w =>
    let r := predictLoop c.qnn w xs
    match r.1 with
    | .error e => ((.error e, c), r.2)
    | .ok preds => ((.ok (accuracyScore preds ys), c), r.2)

/-- C7 (spec-modelled): on a classifier with no successful fit, both
`predict` and `score` fail with the state error and perform zero backend
evaluations. -/
theorem unfittedPredictScoreRaises :
    ∀ (c : NeuralNetworkClassifier) (xs : List (List ℚ)) (ys : List ℚ),
      c.fittedWeights = none →
      c.predict xs = (.error .stateError, 0) ∧
      c.score xs ys = ((.error .stateError, c), 0) := by
  intro c xs ys hnone
  unfold NeuralNetworkClassifier.predict NeuralNetworkClassifier.score
  simp [hnone]

/-- An unfitted, cold-start classifier over the one-weight estimator. -/
def coldClassifier : NeuralNetworkClassifier :=
  ⟨exampleQNN, false, fun _ x0 => x0, none⟩

/-- A warm-start classifier over the one-weight estimator, already fitted
with the stored weight vector `[5]`. -/
def warmClassifier : NeuralNetworkClassifier :=
  ⟨exampleQNN, true, fun _ x0 => x0, some [5]⟩

/-- A fitted classifier over the one-weight estimator with stored weight
vector `[0]`. -/
def fittedClassifier : NeuralNetworkClassifier :=
  ⟨exampleQNN, false, fun _ x0 => x0, some [0]⟩

/-- Witness for C7: the unfitted classifier rejects both calls. -/
theorem unfittedPredictScoreRaises_witness :
    coldClassifier.predict [] = (.error .stateError, 0) ∧
    coldClassifier.score [] [] = ((.error .stateError, coldClassifier), 0) :=
  unfittedPredictScoreRaises coldClassifier [] [] rfl

/-- C8 (spec-modelled): on a cold start (no previous fit, or warm start
disabled) the optimizer starts from the fresh initializer sized to the
weight-parameter count; with warm start enabled on a fitted classifier the
stored weight vector is reused unchanged; and `fit` hands exactly this
starting point to the optimizer and stores the optimizer's result. -/
theorem warmStartReusesWeights :
    ∀ (c : NeuralNetworkClassifier) (xs : List (List ℚ)) (ys : List ℚ),
      ((c.fittedWeights = none ∨ c.warmStart = false) →
        c.fitStart = coldStartWeights c.qnn ∧
        c.fitStart.length = c.qnn.weightParams.length) ∧
      (∀ w, c.warmStart = true → c.fittedWeights = some w → c.fitStart = w) ∧
      c.fit xs ys =
        { c with
          fittedWeights := some (c.optimizer (objectiveL2 c.qnn xs ys) c.fitStart) } := by
  intro c xs ys
  refine ⟨?_, ?_, rfl⟩
  · intro h
    have hcold : c.fitStart = coldStartWeights c.qnn := by
      unfold NeuralNetworkClassifier.fitStart
      cases hf : c.fittedWeights with
      | none => rfl
      | some w =>
        rcases h with h | h
        · rw [hf] at h
          cases h
        · rw [h]
          simp
    refine ⟨hcold, ?_⟩
    rw [hcold]
    exact List.length_replicate _ _
  · intro w hws hf
    unfold NeuralNetworkClassifier.fitStart
    rw [hf, hws]
    simp

/-- Witness for C8: the warm classifier restarts from its stored vector, the
cold one from the fresh initializer. -/
theorem warmStartReusesWeights_witness :
    warmClassifier.fitStart = [5] ∧
    coldClassifier.fitStart = coldStartWeights coldClassifier.qnn :=
  ⟨(warmStartReusesWeights warmClassifier [] []).2.1 [5] rfl rfl,
    ((warmStartReusesWeights coldClassifier [] []).1 (Or.inl rfl)).1⟩

/-- The accuracy fraction always lies in the unit interval. -/
lemma accuracyScore_bounds (preds ys : List ℚ) :
    0 ≤ accuracyScore preds ys ∧ accuracyScore preds ys ≤ 1 := by
  unfold accuracyScore
  constructor
  · apply div_nonneg <;> exact_mod_cast Nat.zero_le _
  · apply div_le_one_of_le₀
    · exact_mod_cast List.length_filter_le _ _
    · exact_mod_cast Nat.zero_le _

/-- C9 (spec-modelled): a successful `score` on a fitted classifier over the
exact backend returns a value in `[0, 1]` and leaves the classifier
unchanged, so an immediately repeated call with the same data returns the
identical value. -/
theorem scoreDeterministicBounded :
    ∀ (c : NeuralNetworkClassifier) (xs : List (List ℚ)) (ys : List ℚ)
      (w : List ℚ) (v : ℚ) (c2 : NeuralNetworkClassifier) (k : Nat),
      c.fittedWeights = some w →
      c.score xs ys = ((.ok v, c2), k) →
      (0 ≤ v ∧ v ≤ 1) ∧ c2 = c ∧ c2.score xs ys = c.score xs ys := by
  intro c xs ys w v c2 k hw hscore
  unfold NeuralNetworkClassifier.score at hscore
  simp only [hw] at hscore
  cases hr : (predictLoop c.qnn w xs).1 with
  | error e =>
    rw [hr] at hscore
    simp at hscore
  | ok preds =>
    rw [hr] at hscore
    simp only [Prod.mk.injEq, Except.ok.injEq] at hscore
    obtain ⟨⟨hv, hc⟩, hk⟩ := hscore
    subst hv
    subst hc
    exact ⟨accuracyScore_bounds preds ys, rfl, rfl⟩

/-- Witness for C9: scoring one zero-input sample with label `1` on the
fitted classifier. -/
theorem scoreDeterministicBounded_witness :
    (0 ≤ accuracyScore [decisionSign (exampleQNN.evalOp [] [0])] [1] ∧
      accuracyScore [decisionSign (exampleQNN.evalOp [] [0])] [1] ≤ 1) ∧
    fittedClassifier = fittedClassifier ∧
    fittedClassifier.score [[]] [1] = fittedClassifier.score [[]] [1] :=
  scoreDeterministicBounded fittedClassifier [[]] [1] [0]
    (accuracyScore [decisionSign (exampleQNN.evalOp [] [0])] [1])
    fittedClassifier 1 rfl rfl

end QML
